import Mathlib

/-!
Verification of the biodome-rs environment-variable library.

The development shallowly embeds the library's two layers:

* the Lookup/Default resolver: `biodome` and `biodome_callable` from
  `src/lib.rs`, modelled with an explicit environment state
  `Env : String → Option OsVal` standing for the process environment,
  and with Rust panics made visible as an explicit outcome;
* the typed conversion layer: `to_prim`, `to_bool`, `to_vec` from
  `src/rawconv.rs`, together with the `TryFromEnv` trait instances of
  `src/lib.rs`, and a model of the external TOML-subset literal value
  grammar the structured conversions rely on.

Rust's `Result<T, E>` together with the possibility of a panic inside a
conversion is embedded as `ConvResult`; the value a caller of `biodome`
observes, which is either a `T` or a panic, is embedded as `RunResult`.
-/

/-- A value stored in the process environment: either valid Unicode text
or a byte sequence that is not valid Unicode. Models Rust's `OsString`
as far as `std::env::var` can distinguish it. -/
inductive OsVal where
  | unicode (s : String)
  | notUnicode
deriving DecidableEq

/-- The external environment store: a key to optional-value mapping. -/
def Env : Type := String → Option OsVal

/-- Error cases of `std::env::var`: the variable is not present, or it is
present but not valid Unicode. -/
inductive VarError where
  | notPresent
  | notUnicode
deriving DecidableEq

/-- Model of `std::env::var`. -/
def envVar (env : Env) (key : String) : Except VarError String :=
  match env key with
  | none => Except.error VarError.notPresent
  | some OsVal.notUnicode => Except.error VarError.notUnicode
  | some (OsVal.unicode s) => Except.ok s

/-- Model of `Result::ok()`: discard the error and keep only success. -/
def exceptOk {ε α : Type} : Except ε α → Option α
  | Except.ok a => some a
  | Except.error _ => none

/-- Outcome of a conversion call (`TryFromEnv::try_from_env`): a success
value, a recoverable `Err` value, or a panic raised inside the
conversion (the `unwrap` calls in `rawconv::to_vec`). -/
inductive ConvResult (α : Type) where
  | ok (a : α)
  | err (e : String)
  | panicked
deriving DecidableEq

/-- Outcome observed by a caller of `biodome`: an ordinary value of the
result type, or a panic. -/
inductive RunResult (α : Type) where
  | value (a : α)
  | panicked
deriving DecidableEq

/-- Model of `biodome` from `src/lib.rs`: read the env var `key`; if the
read yields a string, convert it and panic on a conversion error
(`expect("Failed to parse")`); otherwise return `default`. -/
def biodome {T : Type} (conv : String → ConvResult T) (env : Env)
    (key : String) (default : T) : RunResult T :=
  match exceptOk (envVar env key) with
  | some v =>
    match conv v with
    | ConvResult.ok t => RunResult.value t
    | ConvResult.err _ => RunResult.panicked
    | ConvResult.panicked => RunResult.panicked
  | none => RunResult.value default

/-- Model of `biodome_callable` from `src/lib.rs`: the returned closure
captures `key` and `default` and performs the whole lookup-and-convert
sequence each time it is invoked; the environment at invocation time is
the explicit argument of the returned function. -/
def biodome_callable {T : Type} (conv : String → ConvResult T)
    (key : String) (default : T) : Env → RunResult T :=
  fun env =>
    match exceptOk (envVar env key) with
    | some v =>
      match conv v with
      | ConvResult.ok t => RunResult.value t
      | ConvResult.err _ => RunResult.panicked
      | ConvResult.panicked => RunResult.panicked
    | none => RunResult.value default

/-- Whitespace as trimmed by Rust's `str::trim` (ASCII fragment). -/
def isWsChar (c : Char) : Bool :=
  c = ' ' || c = '\t' || c = '\n' || c = '\r'

/-- Model of Rust's `str::trim`: drop leading and trailing whitespace. -/
def rustTrim (s : String) : String :=
  String.mk (((s.toList.dropWhile isWsChar).reverse.dropWhile isWsChar).reverse)

/-- Model of Rust's `char` lowercasing on the ASCII range. -/
def lowerChar (c : Char) : Char :=
  if 'A' ≤ c ∧ c ≤ 'Z' then Char.ofNat (c.toNat + 32) else c

/-- Model of Rust's `str::to_lowercase` (ASCII fragment). -/
def rustLower (s : String) : String :=
  String.mk (s.toList.map lowerChar)

/-- The fixed truthy set of `rawconv::to_bool`. -/
def TRUTHY_VALUES : List String :=
  ["true", "t", "1", "yes", "y", "ok", "enable", "enabled", "active", "on"]

/-- Model of `rawconv::to_bool`: true when some member of the truthy set
equals the trimmed, lowercased input. -/
def to_bool (s : String) : Bool :=
  TRUTHY_VALUES.any (fun v => v == rustLower (rustTrim s))

/-- Model of `rawconv::to_prim`: delegate to the target type's `FromStr`
parser (`parse : String → Option T`, the error detail being discarded)
and replace any failure by the generic message. -/
def to_prim {T : Type} (parse : String → Option T) (s : String) :
    Except String T :=
  match parse s with
  | some v => Except.ok v
  | none => Except.error "parse error"

/-- Lift a Rust `Result` into the conversion-outcome type. -/
def convOfExcept {α : Type} : Except String α → ConvResult α
  | Except.ok a => ConvResult.ok a
  | Except.error e => ConvResult.err e

/-- The `TryFromEnv` instance for `bool` in `src/lib.rs`: always `Ok`. -/
def tryFromEnvBool (s : String) : ConvResult Bool :=
  ConvResult.ok (to_bool s)

/-- The `TryFromEnv` instance for `String` in `src/lib.rs`: passthrough. -/
def tryFromEnvString (s : String) : ConvResult String :=
  ConvResult.ok s

/-- The `TryFromEnv` instances for the numeric primitive types in
`src/lib.rs` (usize, i8, u8, i16, u16, i32, i64, u32, u64, f32, f64):
each one is `rawconv::to_prim` at that type's `FromStr` parser. -/
def tryFromEnvPrim {T : Type} (parse : String → Option T) (s : String) :
    ConvResult T :=
  convOfExcept (to_prim parse s)

/-- Decimal digit value of an ASCII digit character. -/
def digitVal (c : Char) : Nat := c.toNat - 48

/-- Digits-only accumulation of a decimal numeral. -/
def digitsToNat (cs : List Char) : Nat :=
  cs.foldl (fun a c => a * 10 + digitVal c) 0

/-- Parse a nonempty all-digits string to its numeric value. -/
def parseAllDigits (cs : List Char) : Option Nat :=
  if cs = [] then none
  else if cs.all Char.isDigit then some (digitsToNat cs) else none

/-- Model of Rust's integer `FromStr` for a bounded signed or unsigned
width: an optional sign, one or more ASCII digits, and a range check
(overflow is a parse failure, as in `i32::from_str`). -/
def rustParseInt (lo hi : Int) (s : String) : Option Int :=
  let cs := s.toList
  let signAndDigits : Int × List Char :=
    match cs with
    | '+' :: rest => (1, rest)
    | '-' :: rest => (-1, rest)
    | _ => (1, cs)
  match parseAllDigits signAndDigits.2 with
  | some n =>
    let v : Int := signAndDigits.1 * (n : Int)
    if lo ≤ v then if v ≤ hi then some v else none else none
  | none => none

/-- Rust's `i32::from_str`. -/
def i32_from_str (s : String) : Option Int :=
  rustParseInt (-(2 ^ 31)) (2 ^ 31 - 1) s

/-- Rust's `FromStr` for `String`: infallible identity. -/
def string_from_str (s : String) : Option String := some s

/-- The empty environment: no variable is set. -/
def envEmpty : Env := fun _ => none

/-- An environment with a single Unicode-valued variable. -/
def envSingle (key val : String) : Env :=
  fun k => if k = key then some (OsVal.unicode val) else none

/-- The single-quote character (TOML literal-string delimiter). -/
def squoteChar : Char := Char.ofNat 39

/-- The opening-brace character (TOML inline-table delimiter). -/
def lbraceChar : Char := Char.ofNat 123

/-- The closing-brace character (TOML inline-table delimiter). -/
def rbraceChar : Char := Char.ofNat 125

/-- Skip leading whitespace. -/
def skipWs : List Char → List Char
  | [] => []
  | c :: cs => if isWsChar c then skipWs cs else c :: cs

/-- The value tree produced by the external TOML-subset literal parser
(spec section 4.4): strings, integers, decimals, booleans, arrays and
single-level inline tables. A decimal keeps its lexeme, matching how it
is only ever consumed here (re-serialized back to text). -/
inductive TomlValue where
  | str (s : String)
  | int (n : Int)
  | float (raw : String)
  | boolean (b : Bool)
  | array (elems : List TomlValue)
  | table (pairs : List (String × TomlValue))

/-- Basic-string escape sequences. -/
def escChar (c : Char) : Option Char :=
  if c = '"' then some '"'
  else if c = '\\' then some '\\'
  else if c = 'n' then some '\n'
  else if c = 't' then some '\t'
  else if c = 'r' then some '\r'
  else none

/-- Scan the body of a double-quoted basic string after the opening
quote; return the decoded characters and the input after the closing
quote. -/
def scanBasic : List Char → Option (List Char × List Char)
  | [] => none
  | '"' :: rest => some ([], rest)
  | '\\' :: e :: rest =>
    match escChar e with
    | none => none
    | some c =>
      match scanBasic rest with
      | none => none
      | some (acc, r) => some (c :: acc, r)
  | c :: rest =>
    match scanBasic rest with
    | none => none
    | some (acc, r) => some (c :: acc, r)

/-- Scan the body of a single-quoted literal string (no escapes). -/
def scanLiteral : List Char → Option (List Char × List Char)
  | [] => none
  | c :: rest =>
    if c = squoteChar then some ([], rest)
    else
      match scanLiteral rest with
      | none => none
      | some (acc, r) => some (c :: acc, r)

/-- Characters that end a bare (unquoted) value token. -/
def isDelimChar (c : Char) : Bool :=
  isWsChar c || c = ',' || c = ']' || c = rbraceChar

/-- Take the longest prefix of non-delimiter characters. -/
def takeBare : List Char → List Char × List Char
  | [] => ([], [])
  | c :: cs =>
    if isDelimChar c then ([], c :: cs)
    else
      let r := takeBare cs
      (c :: r.1, r.2)

/-- Classify a bare numeric token: optional sign, digits, and an
optional fraction part making it a decimal. -/
def numToken (tok : List Char) : Option TomlValue :=
  let core : Int × List Char :=
    match tok with
    | '+' :: rest => (1, rest)
    | '-' :: rest => (-1, rest)
    | _ => (1, tok)
  let intPart := core.2.takeWhile Char.isDigit
  let after := core.2.dropWhile Char.isDigit
  if intPart = [] then none
  else
    match after with
    | [] => some (TomlValue.int (core.1 * (digitsToNat intPart : Int)))
    | '.' :: frac =>
      if frac ≠ [] ∧ frac.all Char.isDigit then
        some (TomlValue.float (String.mk tok))
      else none
    | _ => none

/-- Classify a bare token: boolean keyword or numeric literal. -/
def classifyBare (tok : List Char) : Option TomlValue :=
  if tok = "true".toList then some (TomlValue.boolean true)
  else if tok = "false".toList then some (TomlValue.boolean false)
  else numToken tok

/-- Characters allowed in a bare inline-table key. -/
def isBareKeyChar (c : Char) : Bool :=
  c.isAlphanum || c = '_' || c = '-'

/-- Take the longest prefix of bare-key characters. -/
def takeBareKey : List Char → List Char × List Char
  | [] => ([], [])
  | c :: cs =>
    if isBareKeyChar c then
      let r := takeBareKey cs
      (c :: r.1, r.2)
    else ([], c :: cs)

/-- Parse an inline-table key: bare, double-quoted or single-quoted. -/
def parseKey (cs : List Char) : Option (String × List Char) :=
  match cs with
  | [] => none
  | c :: rest =>
    if c = '"' then
      match scanBasic rest with
      | some (acc, r) => some (String.mk acc, r)
      | none => none
    else if c = squoteChar then
      match scanLiteral rest with
      | some (acc, r) => some (String.mk acc, r)
      | none => none
    else
      let t := takeBareKey (c :: rest)
      if t.1 = [] then none else some (String.mk t.1, t.2)

mutual

/-- Modelled from the spec: the embedded TOML-subset markup parser of
section 4.4, the external collaborator (the `toml` crate) used by
`rawconv::to_vec` and the mapping conversion; it is not code under
`src/`. Parses one literal value (quoted strings, bare integers and
decimals, booleans, nested arrays with optional trailing comma, inline
tables with bare or quoted keys) and returns it with the rest of the
input. The `fuel` argument bounds recursion depth. -/
def parseVal : Nat → List Char → Option (TomlValue × List Char)
  | 0, _ => none
  | fuel + 1, cs =>
    match skipWs cs with
    | [] => none
    | c :: rest =>
      if c = '"' then
        match scanBasic rest with
        | some (acc, r) => some (TomlValue.str (String.mk acc), r)
        | none => none
      else if c = squoteChar then
        match scanLiteral rest with
        | some (acc, r) => some (TomlValue.str (String.mk acc), r)
        | none => none
      else if c = '[' then
        match parseArrayItems fuel (skipWs rest) with
        | some (vs, r) => some (TomlValue.array vs, r)
        | none => none
      else if c = lbraceChar then
        match skipWs rest with
        | [] => none
        | c2 :: r2 =>
          if c2 = rbraceChar then some (TomlValue.table [], r2)
          else
            match parseTablePairs fuel (c2 :: r2) with
            | some (ps, r) => some (TomlValue.table ps, r)
            | none => none
      else
        let t := takeBare (c :: rest)
        match classifyBare t.1 with
        | some v => some (v, t.2)
        | none => none

/-- Parse the items of an array after the opening bracket (whitespace
already skipped), allowing an optional trailing comma. -/
def parseArrayItems : Nat → List Char → Option (List TomlValue × List Char)
  | 0, _ => none
  | fuel + 1, cs =>
    match cs with
    | [] => none
    | c :: rest =>
      if c = ']' then some ([], rest)
      else
        match parseVal fuel (c :: rest) with
        | none => none
        | some (v, r) =>
          match skipWs r with
          | ',' :: r2 =>
            match parseArrayItems fuel (skipWs r2) with
            | some (vs, r3) => some (v :: vs, r3)
            | none => none
          | ']' :: r2 => some ([v], r2)
          | _ => none

/-- Parse the key-value pairs of an inline table starting at a key. -/
def parseTablePairs : Nat → List Char →
    Option (List (String × TomlValue) × List Char)
  | 0, _ => none
  | fuel + 1, cs =>
    match parseKey cs with
    | none => none
    | some (k, r) =>
      match skipWs r with
      | '=' :: r2 =>
        match parseVal fuel (skipWs r2) with
        | none => none
        | some (v, r3) =>
          match skipWs r3 with
          | ',' :: r4 =>
            match parseTablePairs fuel (skipWs r4) with
            | some (ps, r5) => some ((k, v) :: ps, r5)
            | none => none
          | c :: r4 => if c = rbraceChar then some ([(k, v)], r4) else none
          | [] => none
      | _ => none

end

/-- Model of the external TOML parsing step in `rawconv::to_vec`: the
code forms the document `x = <raw>` with `format!`, parses it with the
`toml` crate, and extracts the value bound to `x`; this is the raw
string parsed as a single literal value with nothing but whitespace
around it. -/
def parseValueWhole (s : String) : Option TomlValue :=
  let cs := s.toList
  match parseVal (2 * cs.length + 8) cs with
  | some (v, rest) => if skipWs rest = [] then some v else none
  | none => none

/-- Escaping of basic-string characters in TOML serialization. -/
def escapeChars : List Char → List Char
  | [] => []
  | c :: cs =>
    if c = '"' then '\\' :: '"' :: escapeChars cs
    else if c = '\\' then '\\' :: '\\' :: escapeChars cs
    else if c = '\n' then '\\' :: 'n' :: escapeChars cs
    else if c = '\t' then '\\' :: 't' :: escapeChars cs
    else if c = '\r' then '\\' :: 'r' :: escapeChars cs
    else c :: escapeChars cs

/-- Escape a string for TOML basic-string serialization. -/
def escapeBasic (s : String) : String :=
  String.mk (escapeChars s.toList)

mutual

/-- Model of the `Display` implementation of the `toml` crate's `Value`
type, used by `rawconv::to_vec` on each array element
(`v.to_string()`): serialize the value back to TOML literal text. In
particular a string value is emitted as a double-quoted, escaped TOML
basic string, so its quotes are part of the produced text. -/
def tomlDisplay : TomlValue → String
  | TomlValue.str s => "\"" ++ escapeBasic s ++ "\""
  | TomlValue.int n => toString n
  | TomlValue.float raw => raw
  | TomlValue.boolean b => if b then "true" else "false"
  | TomlValue.array xs => "[" ++ tomlDisplayElems xs ++ "]"
  | TomlValue.table ps => "\x7b " ++ tomlDisplayPairs ps ++ " \x7d"

/-- Comma-separated serialization of array elements. -/
def tomlDisplayElems : List TomlValue → String
  | [] => ""
  | [v] => tomlDisplay v
  | v :: vs => tomlDisplay v ++ ", " ++ tomlDisplayElems vs

/-- Comma-separated serialization of inline-table pairs. -/
def tomlDisplayPairs : List (String × TomlValue) → String
  | [] => ""
  | [(k, v)] => k ++ " = " ++ tomlDisplay v
  | (k, v) :: ps => k ++ " = " ++ tomlDisplay v ++ ", " ++ tomlDisplayPairs ps

end

/-- Element-wise conversion as `rawconv::to_vec` performs it: the map
with `unwrap` over the iterator, which panics at the first element
whose conversion fails and otherwise keeps every element in order. -/
def mapOrPanic {α β : Type} (f : α → Option β) : List α → ConvResult (List β)
  | [] => ConvResult.ok []
  | x :: xs =>
    match f x with
    | none => ConvResult.panicked
    | some y =>
      match mapOrPanic f xs with
      | ConvResult.ok ys => ConvResult.ok (y :: ys)
      | ConvResult.err e => ConvResult.err e
      | ConvResult.panicked => ConvResult.panicked

/-- Total element-wise conversion in order: the specification-side
companion of `mapOrPanic`, succeeding exactly when every element
converts, with the results in the order of the input. -/
def convertAll {α β : Type} (f : α → Option β) : List α → Option (List β)
  | [] => some []
  | x :: xs =>
    match f x with
    | none => none
    | some y =>
      match convertAll f xs with
      | none => none
      | some ys => some (y :: ys)

/-- Model of `rawconv::to_vec`: parse `x = <raw>` as TOML and extract
`x` (`unwrap`: a syntax failure is a panic), require an array value
(`as_array().unwrap()`: a non-array is a panic), then convert every
element by serializing it back to text (`v.to_string()`) and parsing
that text with the element type's `FromStr` (`parse().unwrap()`: an
element failure is a panic). The declared error type is never used. -/
def to_vec {T : Type} (parse : String → Option T) (s : String) :
    ConvResult (List T) :=
  match parseValueWhole s with
  | none => ConvResult.panicked
  | some (TomlValue.array elems) =>
    mapOrPanic (fun v => parse (tomlDisplay v)) elems
  | some _ => ConvResult.panicked

/-- Modelled from the spec: `rawconv::to_hashmap`, called by the
`TryFromEnv` instance for `HashMap<String, T>` in `src/lib.rs`, is not
present under `src/`. Per spec sections 4.3 and 7 it parses the raw
string directly as a TOML-style inline table, keeps the keys as given
with no case normalization, converts each value to the element type by
the same element conversion rule as the sequence converter, and any
malformed syntax or element failure surfaces as a generic parse error
returned as a recoverable result. The mapping is represented by its
list of key-value pairs (insertion order irrelevant). -/
def to_hashmap {T : Type} (parse : String → Option T) (s : String) :
    ConvResult (List (String × T)) :=
  match parseValueWhole s with
  | some (TomlValue.table pairs) =>
    match convertAll (fun p => (parse (tomlDisplay p.2)).map (fun t => (p.1, t))) pairs with
    | some m => ConvResult.ok m
    | none => ConvResult.err "parse error"
  | _ => ConvResult.err "parse error"

/-- The `TryFromEnv` instance for `Vec<T>` in `src/lib.rs`. -/
def tryFromEnvVec {T : Type} (parse : String → Option T) (s : String) :
    ConvResult (List T) :=
  to_vec parse s

/-- The `TryFromEnv` instance for `HashMap<String, T>` in `src/lib.rs`. -/
def tryFromEnvMap {T : Type} (parse : String → Option T) (s : String) :
    ConvResult (List (String × T)) :=
  to_hashmap parse s

/-- An environment whose single entry is not valid Unicode. -/
def envBad : Env :=
  fun k => if k = "RAW" then some OsVal.notUnicode else none

/-- `mapOrPanic` never produces an error value: the error constructor of
the result type is unreachable in `rawconv::to_vec`. -/
theorem mapOrPanic_ne_err {α β : Type} (f : α → Option β) :
    ∀ (xs : List α) (e : String), mapOrPanic f xs ≠ ConvResult.err e := by
  intro xs
  induction xs with
  | nil => simp [mapOrPanic]
  | cons x xs ih =>
    intro e
    cases hf : f x with
    | none => simp [mapOrPanic, hf]
    | some y =>
      cases hr : mapOrPanic f xs with
      | ok ys => simp [mapOrPanic, hf, hr]
      | err e2 => exact absurd hr (ih e2)
      | panicked => simp [mapOrPanic, hf, hr]

/-- `mapOrPanic` succeeds exactly when every element converts, and then
returns the in-order conversion of the whole list. -/
theorem mapOrPanic_ok_iff {α β : Type} (f : α → Option β) :
    ∀ (xs : List α) (ys : List β),
      mapOrPanic f xs = ConvResult.ok ys ↔ convertAll f xs = some ys := by
  intro xs
  induction xs with
  | nil => intro ys; simp [mapOrPanic, convertAll]
  | cons x xs ih =>
    intro ys
    cases hf : f x with
    | none => simp [mapOrPanic, convertAll, hf]
    | some y =>
      cases hr : mapOrPanic f xs with
      | ok ys2 =>
        have hc : convertAll f xs = some ys2 := (ih ys2).1 hr
        simp [mapOrPanic, convertAll, hf, hr, hc]
      | err e => exact absurd hr (mapOrPanic_ne_err f xs e)
      | panicked =>
        have hc : convertAll f xs = none := by
          cases hcc : convertAll f xs with
          | none => rfl
          | some ys2 =>
            rw [(ih ys2).2 hcc] at hr
            exact ConvResult.noConfusion hr
        simp [mapOrPanic, convertAll, hf, hr, hc]

/-- When some element fails to convert, `mapOrPanic` panics. -/
theorem mapOrPanic_none_panics {α β : Type} (f : α → Option β)
    (xs : List α) (h : convertAll f xs = none) :
    mapOrPanic f xs = ConvResult.panicked := by
  cases hr : mapOrPanic f xs with
  | ok ys =>
    rw [(mapOrPanic_ok_iff f xs ys).1 hr] at h
    exact Option.noConfusion h
  | err e => exact absurd hr (mapOrPanic_ne_err f xs e)
  | panicked => rfl

/-- Claim C1: for every key absent from the environment store and every
default value of a supported type, `biodome` returns the default
unchanged; no conversion is performed (the result is the same for every
conversion function) and the call cannot fail or panic. -/
theorem biodome_absent_returns_default {T : Type}
    (convA convB : String → ConvResult T) (env : Env) (key : String) (d : T)
    (h : env key = none) :
    biodome convA env key d = RunResult.value d ∧
    biodome convA env key d = biodome convB env key d := by
  constructor
  · simp [biodome, envVar, exceptOk, h]
  · simp [biodome, envVar, exceptOk, h]

/-- Witness for claim C1 at a concrete environment. -/
theorem biodome_absent_returns_default_witness :
    biodome tryFromEnvBool envEmpty "DEBUG" true = RunResult.value true ∧
    biodome tryFromEnvBool envEmpty "DEBUG" true
      = biodome (fun _ => ConvResult.err "boom") envEmpty "DEBUG" true :=
  biodome_absent_returns_default tryFromEnvBool (fun _ => ConvResult.err "boom")
    envEmpty "DEBUG" true rfl

/-- Claim C2: when the key is present but its value fails conversion to
the target type, `biodome` surfaces the failure (the
`expect("Failed to parse")` panic); it never falls back to the default
and never returns a substitute value. -/
theorem biodome_present_malformed_panics {T : Type}
    (conv : String → ConvResult T) (env : Env) (key v : String) (d : T)
    (e : String) (h1 : env key = some (OsVal.unicode v))
    (h2 : conv v = ConvResult.err e) :
    biodome conv env key d = RunResult.panicked ∧
    ∀ x : T, biodome conv env key d ≠ RunResult.value x := by
  have hb : biodome conv env key d = RunResult.panicked := by
    simp [biodome, envVar, exceptOk, h1, h2]
  refine ⟨hb, fun x hx => ?_⟩
  rw [hb] at hx
  exact RunResult.noConfusion hx

/-- Witness for claim C2: an integer-typed variable set to the value
not_a_number makes resolution panic rather than return the default. -/
theorem biodome_present_malformed_panics_witness :
    biodome (tryFromEnvPrim i32_from_str)
      (envSingle "TIMEOUT" "not_a_number") "TIMEOUT" 10
      = RunResult.panicked :=
  (biodome_present_malformed_panics (tryFromEnvPrim i32_from_str)
    (envSingle "TIMEOUT" "not_a_number") "TIMEOUT" "not_a_number" 10
    "parse error" rfl rfl).1

/-- Claim C3: boolean conversion never fails, and produces true exactly
when the whitespace-trimmed, lowercased input is a member of the fixed
truthy set; every other input, the empty string and garbage included,
produces false. -/
theorem to_bool_truthy_set (s : String) :
    tryFromEnvBool s = ConvResult.ok (to_bool s) ∧
    (to_bool s = true ↔ rustLower (rustTrim s) ∈ TRUTHY_VALUES) := by
  refine ⟨rfl, ?_⟩
  unfold to_bool
  rw [List.any_eq_true]
  constructor
  · rintro ⟨v, hv, he⟩
    rw [beq_iff_eq] at he
    rwa [he] at hv
  · intro h
    exact ⟨rustLower (rustTrim s), h, beq_self_eq_true _⟩

/-- Claim C4: for every scalar target, conversion delegates to the host
language's parser for that exact width (`parse` in the embedding):
whenever that parser accepts the string, resolving a key holding the
string yields exactly the parsed value, and whenever that parser
rejects it, the conversion fails with the generic error message
"parse error". -/
theorem to_prim_delegates_to_host {T : Type}
    (parse : String → Option T) (s : String) (env : Env) (key : String)
    (d : T) :
    (∀ v, parse s = some v → env key = some (OsVal.unicode s) →
      biodome (tryFromEnvPrim parse) env key d = RunResult.value v) ∧
    (parse s = none →
      tryFromEnvPrim parse s = ConvResult.err "parse error") := by
  constructor
  · intro v hp he
    simp [biodome, envVar, exceptOk, he, tryFromEnvPrim, to_prim, convOfExcept, hp]
  · intro hp
    simp [tryFromEnvPrim, to_prim, convOfExcept, hp]

/-- Witness for claim C4 at the i32 parser, on an accepted and on a
rejected string. -/
theorem to_prim_delegates_to_host_witness :
    biodome (tryFromEnvPrim i32_from_str) (envSingle "ABC" "123") "ABC" 0
      = RunResult.value 123 ∧
    tryFromEnvPrim i32_from_str "not_a_number" = ConvResult.err "parse error" :=
  ⟨(to_prim_delegates_to_host i32_from_str "123"
      (envSingle "ABC" "123") "ABC" 0).1 123 rfl rfl,
   (to_prim_delegates_to_host i32_from_str "not_a_number"
      envEmpty "ABC" 0).2 rfl⟩

/-- Claim C5 counterexample: on the malformed input nope, and with an
integer element type, the sequence converter panics; it does not return
the recoverable generic parse error to its caller. -/
theorem to_vec_malformed_not_recoverable :
    to_vec i32_from_str "nope" = ConvResult.panicked ∧
    to_vec i32_from_str "nope" ≠ ConvResult.err "parse error" := by
  exact ⟨rfl, by decide⟩

/-- Claim C5 (amended): any malformed markup syntax and any element
failing individual conversion causes `to_vec` to panic (abort) rather
than return an error result to its caller; the converter never returns
an error value at all, and no partial result is ever returned: a
successful result converts every element of the parsed array. -/
theorem to_vec_failure_is_panic {T : Type} (parse : String → Option T)
    (s : String) :
    (∀ e, to_vec parse s ≠ ConvResult.err e) ∧
    (parseValueWhole s = none → to_vec parse s = ConvResult.panicked) ∧
    (∀ elems, parseValueWhole s = some (TomlValue.array elems) →
      convertAll (fun v => parse (tomlDisplay v)) elems = none →
      to_vec parse s = ConvResult.panicked) ∧
    (∀ l, to_vec parse s = ConvResult.ok l →
      ∃ elems, parseValueWhole s = some (TomlValue.array elems) ∧
        convertAll (fun v => parse (tomlDisplay v)) elems = some l) := by
  refine ⟨?_, ?_, ?_, ?_⟩
  · intro e h
    cases hp : parseValueWhole s with
    | none => simp [to_vec, hp] at h
    | some v =>
      cases v with
      | array elems =>
        simp [to_vec, hp] at h
        exact mapOrPanic_ne_err _ elems e h
      | str x => simp [to_vec, hp] at h
      | int n => simp [to_vec, hp] at h
      | float raw => simp [to_vec, hp] at h
      | boolean b => simp [to_vec, hp] at h
      | table ps => simp [to_vec, hp] at h
  · intro hp
    simp [to_vec, hp]
  · intro elems hp hc
    simp [to_vec, hp]
    exact mapOrPanic_none_panics _ elems hc
  · intro l h
    cases hp : parseValueWhole s with
    | none => simp [to_vec, hp] at h
    | some v =>
      cases v with
      | array elems =>
        simp [to_vec, hp] at h
        exact ⟨elems, rfl, (mapOrPanic_ok_iff _ elems l).1 h⟩
      | str x => simp [to_vec, hp] at h
      | int n => simp [to_vec, hp] at h
      | float raw => simp [to_vec, hp] at h
      | boolean b => simp [to_vec, hp] at h
      | table ps => simp [to_vec, hp] at h

/-- Witness for the amended claim C5 on a concrete malformed input. -/
theorem to_vec_failure_is_panic_witness :
    to_vec i32_from_str "[1, 2" = ConvResult.panicked :=
  (to_vec_failure_is_panic i32_from_str "[1, 2").2.1 rfl

/-- Claim C6: sequence conversion yields the parsed elements in exactly
the order they are written, preserving duplicates, and the round trip
holds: a variable set to the literal list one-two-three with default
[9] resolves to [1, 2, 3], an absent variable resolves to [9], and a
duplicated literal keeps its duplicates. -/
theorem to_vec_order_and_round_trip :
    (∀ (T : Type) (parse : String → Option T) (s : String) elems l,
      parseValueWhole s = some (TomlValue.array elems) →
      to_vec parse s = ConvResult.ok l →
      convertAll (fun v => parse (tomlDisplay v)) elems = some l) ∧
    biodome (tryFromEnvVec i32_from_str) (envSingle "PORTS" "[1, 2, 3]")
      "PORTS" [9] = RunResult.value [1, 2, 3] ∧
    biodome (tryFromEnvVec i32_from_str) envEmpty "PORTS" [9]
      = RunResult.value [9] ∧
    to_vec i32_from_str "[7, 7]" = ConvResult.ok [7, 7] := by
  refine ⟨?_, rfl, rfl, rfl⟩
  intro T parse s elems l hp h
  simp [to_vec, hp] at h
  exact (mapOrPanic_ok_iff _ elems l).1 h

/-- Witness for claim C6: the general order-preservation conjunct at
the concrete literal one-two-three. -/
theorem to_vec_order_and_round_trip_witness :
    convertAll (fun v => i32_from_str (tomlDisplay v))
      [TomlValue.int 1, TomlValue.int 2, TomlValue.int 3] = some [1, 2, 3] :=
  to_vec_order_and_round_trip.1 Int i32_from_str "[1, 2, 3]"
    [TomlValue.int 1, TomlValue.int 2, TomlValue.int 3] [1, 2, 3] rfl rfl

/-- Claim C7 counterexample: parsing a two-element string array as a
sequence of strings yields the elements with their TOML quotes
retained, not the bare contents a and b. -/
theorem to_vec_string_elements_keep_quotes :
    to_vec string_from_str "[\"a\", \"b\"]"
      = ConvResult.ok ["\"a\"", "\"b\""] ∧
    to_vec string_from_str "[\"a\", \"b\"]"
      ≠ ConvResult.ok ["a", "b"] := by
  exact ⟨rfl, by decide⟩

/-- Claim C7 (amended): each array element is converted by serializing
it back to TOML literal text and parsing that text as the element
type; for integer elements this coincides with scalar parsing of the
written literal, while a string element keeps its TOML quoting, so the
string element conversion is not an identity passthrough of the
content. -/
theorem to_vec_element_conversion_rule :
    (∀ (T : Type) (parse : String → Option T) (s : String) elems,
      parseValueWhole s = some (TomlValue.array elems) →
      to_vec parse s = mapOrPanic (fun v => parse (tomlDisplay v)) elems) ∧
    (∀ n : Int, tomlDisplay (TomlValue.int n) = toString n) ∧
    (∀ q : String, tomlDisplay (TomlValue.str q)
      = "\"" ++ escapeBasic q ++ "\"") ∧
    to_vec i32_from_str "[1, 2]" = ConvResult.ok [1, 2] := by
  refine ⟨?_, fun n => rfl, fun q => rfl, rfl⟩
  intro T parse s elems hp
  simp [to_vec, hp]

/-- Witness for the amended claim C7 at a concrete one-string array. -/
theorem to_vec_element_conversion_rule_witness :
    to_vec string_from_str "[\"a\"]"
      = mapOrPanic (fun v => string_from_str (tomlDisplay v))
          [TomlValue.str "a"] :=
  to_vec_element_conversion_rule.1 String string_from_str "[\"a\"]"
    [TomlValue.str "a"] rfl

/-- Key preservation of the spec-modelled mapping conversion: a
successful conversion keeps the parsed table's keys exactly, in
particular with no case normalization. -/
theorem convertAll_pairs_keys {T : Type} (parse : String → Option T) :
    ∀ (pairs : List (String × TomlValue)) (m : List (String × T)),
      convertAll (fun p => (parse (tomlDisplay p.2)).map (fun t => (p.1, t)))
        pairs = some m →
      m.map Prod.fst = pairs.map Prod.fst := by
  intro pairs
  induction pairs with
  | nil =>
    intro m h
    simp [convertAll] at h
    simp [← h]
  | cons p ps ih =>
    intro m h
    cases hf : parse (tomlDisplay p.2) with
    | none => simp [convertAll, hf] at h
    | some t =>
      cases hc : convertAll
          (fun p => (parse (tomlDisplay p.2)).map (fun t => (p.1, t))) ps with
      | none => simp [convertAll, hf, hc] at h
      | some ms =>
        simp [convertAll, hf, hc] at h
        simp [← h, ih ms hc]

/-- Claim C8: mapping conversion parses the raw string as a TOML-style
inline table, keeps the keys exactly as written with no case
normalization, and converts each value to the target element type; the
round trip holds for a concrete two-key table with an integer shape,
and an absent variable yields the default mapping unchanged. -/
theorem to_hashmap_round_trip :
    (∀ (T : Type) (parse : String → Option T) (s : String) pairs m,
      parseValueWhole s = some (TomlValue.table pairs) →
      to_hashmap parse s = ConvResult.ok m →
      m.map Prod.fst = pairs.map Prod.fst) ∧
    to_hashmap i32_from_str "\x7ba = 1, b = 2\x7d"
      = ConvResult.ok [("a", 1), ("b", 2)] ∧
    to_hashmap i32_from_str "\x7bXX=3,YY=4\x7d"
      = ConvResult.ok [("XX", 3), ("YY", 4)] ∧
    biodome (tryFromEnvMap i32_from_str)
      (envSingle "LOGLEVELS" "\x7ba = 1, b = 2\x7d") "LOGLEVELS" []
      = RunResult.value [("a", 1), ("b", 2)] ∧
    biodome (tryFromEnvMap i32_from_str) envEmpty "LOGLEVELS" []
      = RunResult.value [] := by
  refine ⟨?_, rfl, rfl, rfl, rfl⟩
  intro T parse s pairs m hp h
  cases hc : convertAll
      (fun p => (parse (tomlDisplay p.2)).map (fun t => (p.1, t))) pairs with
  | none => simp [to_hashmap, hp, hc] at h
  | some m2 =>
    simp [to_hashmap, hp, hc] at h
    rw [← h]
    exact convertAll_pairs_keys parse pairs m2 hc

/-- Witness for claim C8: the key-preservation conjunct at a concrete
two-key table. -/
theorem to_hashmap_round_trip_witness :
    ([("a", (1 : Int)), ("b", 2)].map Prod.fst)
      = ([("a", TomlValue.int 1), ("b", TomlValue.int 2)].map Prod.fst) :=
  to_hashmap_round_trip.1 Int i32_from_str "\x7ba = 1, b = 2\x7d"
    [("a", TomlValue.int 1), ("b", TomlValue.int 2)] [("a", 1), ("b", 2)]
    rfl rfl

/-- Claim C9: the callable returned by `biodome_callable` re-performs
the full lookup-and-convert sequence against the environment state
current at each invocation: it coincides with `biodome` at every state,
a change of the variable between two invocations of the same callable
is reflected by the second invocation, and at a state where the
variable is absent the callable returns the captured default. -/
theorem biodome_callable_reevaluates {T : Type}
    (conv : String → ConvResult T) (key : String) (d : T) :
    (∀ env : Env, biodome_callable conv key d env = biodome conv env key d) ∧
    (∀ (env2 : Env) (v : String) (t : T),
      env2 key = some (OsVal.unicode v) → conv v = ConvResult.ok t →
      biodome_callable conv key d env2 = RunResult.value t) ∧
    (∀ env : Env, env key = none →
      biodome_callable conv key d env = RunResult.value d) := by
  refine ⟨fun env => rfl, ?_, ?_⟩
  · intro env2 v t h1 h2
    simp [biodome_callable, envVar, exceptOk, h1, h2]
  · intro env h
    simp [biodome_callable, envVar, exceptOk, h]

/-- Witness for claim C9, mirroring the callables scenario of the
crate's tests: the same callable returns the default 8 while the
variable is unset and 16 after it is set to the string 16. -/
theorem biodome_callable_reevaluates_witness :
    biodome_callable (tryFromEnvPrim i32_from_str) "NUM_THREADS" 8 envEmpty
      = RunResult.value 8 ∧
    biodome_callable (tryFromEnvPrim i32_from_str) "NUM_THREADS" 8
      (envSingle "NUM_THREADS" "16") = RunResult.value 16 :=
  ⟨(biodome_callable_reevaluates (tryFromEnvPrim i32_from_str)
      "NUM_THREADS" 8).2.2 envEmpty rfl,
   (biodome_callable_reevaluates (tryFromEnvPrim i32_from_str)
      "NUM_THREADS" 8).2.1 (envSingle "NUM_THREADS" "16") "16" 16 rfl rfl⟩

/-- Claim C10: a key whose environment entry exists but is not valid
Unicode is treated exactly as an absent key: `biodome` returns the
default, identically to the environment with the entry removed, with no
conversion attempt and no surfaced error. -/
theorem biodome_non_unicode_as_absent {T : Type}
    (conv : String → ConvResult T) (env : Env) (key : String) (d : T)
    (h : env key = some OsVal.notUnicode) :
    biodome conv env key d = RunResult.value d ∧
    biodome conv env key d
      = biodome conv (fun k => if k = key then none else env k) key d := by
  have h2 : (fun k => if k = key then none else env k) key = none := by simp
  constructor
  · simp [biodome, envVar, exceptOk, h]
  · simp [biodome, envVar, exceptOk, h, h2]

/-- Witness for claim C10 at a concrete non-Unicode entry. -/
theorem biodome_non_unicode_as_absent_witness :
    biodome tryFromEnvBool envBad "RAW" false = RunResult.value false :=
  (biodome_non_unicode_as_absent tryFromEnvBool envBad "RAW" false rfl).1
